import Mathlib

/-!
Shallow embedding of the Recon subdomain-enumeration engine.

The sources embedded here are `src/core.py` (candidate-source resolution,
passive crt.sh fetch, DNS phase, progress-threshold logic, result dict)
and `src/http_validator.py` (HTTP/HTTPS liveness classification).
External effects are passed in explicitly: the file system is a finite
map from paths to file lines, the DNS resolver a map from hosts
to optional A records, the network probe a map from URLs to optional status codes,
and the crt.sh call a single abstract HTTP outcome.  Machine floats of
the source (percentages, elapsed time) are modelled with exact rationals.
-/

namespace Recon

/-! ## Python string primitives

The Python string methods used by the source (`strip`, `lower`,
`startswith`, `endswith`, `split`, `replace`, `in`) are modelled
structurally over the character list of a `String`, so that every
definition evaluates inside the kernel on concrete inputs. -/

/-- The whitespace characters stripped by Python `str.strip()`. -/
def isSpace (c : Char) : Bool :=
  c = ' ' || c = '\t' || c = '\n' || c = '\r' || c = '\x0b' || c = '\x0c'

/-- ASCII lower-casing of one character (`str.lower` on the inputs the
source handles). -/
def lowerChar (c : Char) : Char :=
  if 65 ≤ c.toNat && c.toNat ≤ 90 then Char.ofNat (c.toNat + 32) else c

/-- Python `s.strip()`. -/
def pyStrip (s : String) : String :=
  ⟨((s.data.dropWhile isSpace).reverse.dropWhile isSpace).reverse⟩

/-- Python `s.lower()`. -/
def pyLower (s : String) : String :=
  ⟨s.data.map lowerChar⟩

/-- Python `s.startswith(pat)`. -/
def pyStartsWith (s pat : String) : Bool :=
  pat.data.isPrefixOf s.data

/-- Python `s.endswith(pat)`. -/
def pyEndsWith (s pat : String) : Bool :=
  pat.data.reverse.isPrefixOf s.data.reverse

/-- Python `c in s` for a single character. -/
def pyContainsChar (s : String) (c : Char) : Bool :=
  s.data.contains c

/-- Split a character list on a separator character, Python
`str.split(sep)` style: `n` separators yield `n + 1` pieces. -/
def splitCharAux (sep : Char) : List Char → List Char → List (List Char)
  | [], acc => [acc.reverse]
  | c :: rest, acc =>
      if c = sep then acc.reverse :: splitCharAux sep rest []
      else splitCharAux sep rest (c :: acc)

/-- Python `s.split("\n")`. -/
def pySplitNl (s : String) : List String :=
  (splitCharAux '\n' s.data []).map (fun l => ⟨l⟩)

/-- Strip `pat` from the front of `l`, or fail. -/
def stripPre? : List Char → List Char → Option (List Char)
  | [], l => some l
  | _ :: _, [] => none
  | p :: ps, c :: cs => if c = p then stripPre? ps cs else none

/-- Left-to-right non-overlapping replacement, fuelled by the source
length (each step consumes at least one character for a non-empty
pattern). -/
def replaceAux (pat repl : List Char) : Nat → List Char → List Char
  | _, [] => []
  | 0, l => l
  | fuel + 1, c :: rest =>
      match stripPre? pat (c :: rest) with
      | some rem => repl ++ replaceAux pat repl fuel rem
      | none => c :: replaceAux pat repl fuel rest

/-- Python `s.replace(pat, repl)` for the non-empty patterns the source
uses (for an empty pattern this model returns `s` unchanged; the source
only ever replaces `"*."` and `"." + domain`, both non-empty). -/
def pyReplace (s pat repl : String) : String :=
  if pat = "" then s
  else ⟨replaceAux pat.data repl.data s.data.length s.data⟩

/-! ## Data model -/

/-- `{"host": str, "ips": [str]}` record produced by `resolve_a` in core.py. -/
structure ResolvedHost where
  host : String
  ips : List String
deriving DecidableEq

/-- Record returned by `check_http` in http_validator.py:
`{"subdomain", "url", "status", "ips"}` with `url`/`status` optional. -/
structure ValidationResult where
  subdomain : String
  url : Option String
  status : Option Nat
  ips : List String
deriving DecidableEq

/-- `{"subdomain", "ips"}` entry of the `dns_only` output array. -/
structure DnsOnlyResult where
  subdomain : String
  ips : List String
deriving DecidableEq

/-- Python truthiness of an optional integer (`if status:`):
`None` and `0` are falsy, every other integer is truthy. -/
def pyTruthy : Option Nat → Bool
  | none => false
  | some n => n != 0

/-! ## http_validator.py -/

/-- `check_http(subdomain, ips)` from http_validator.py.  The network is
the argument `probe`, standing for `fetch_status` on a URL: `some s` when
the GET yielded HTTP status `s`, `none` when the request failed.  The
source tries `http://` then `https://`, returning on the first truthy
status; if neither is truthy it returns a record with null url/status. -/
def check_http (probe : String → Option Nat) (subdomain : String)
    (ips : List String) : ValidationResult :=
  let url1 := "http://" ++ subdomain
  let url2 := "https://" ++ subdomain
  let s1 := probe url1
  if pyTruthy s1 then
    { subdomain := subdomain, url := some url1, status := s1, ips := ips }
  else
    let s2 := probe url2
    if pyTruthy s2 then
      { subdomain := subdomain, url := some url2, status := s2, ips := ips }
    else
      { subdomain := subdomain, url := none, status := none, ips := ips }

/-- The `{"live_web_services": [...], "dns_only": [...]}` dict returned by
`validate_subdomains`. -/
structure ValidateOutput where
  live_web_services : List ValidationResult
  dns_only : List DnsOnlyResult
deriving DecidableEq

/-- `validate_subdomains(subdomain_results)` from http_validator.py: probe
every resolved host with `check_http` and split the results on the
truthiness of `result["status"]`, turning falsy-status results into
`{"subdomain", "ips"}` entries.  `asyncio.as_completed` makes the
processing order a permutation of the task order; this embedding fixes
the task (input) order as the representative, and the properties proved
below are invariant under permutation of the completion order. -/
def validate_subdomains (probe : String → Option Nat)
    (subdomain_results : List ResolvedHost) : ValidateOutput :=
  let results := subdomain_results.map (fun r => check_http probe r.host r.ips)
  { live_web_services := results.filter (fun r => pyTruthy r.status)
    dns_only := (results.filter (fun r => !(pyTruthy r.status))).map
      (fun r => { subdomain := r.subdomain, ips := r.ips }) }

/-! ## core.py: errors, file system, wordlists, presets -/

/-- The two exception kinds candidate-source resolution can raise in
core.py: `FileNotFoundError` (from `load_wordlist`) and `ValueError`
(null preset path with no usable custom path). -/
inductive EnumError where
  | fileNotFound (msg : String)
  | valueError (msg : String)
deriving DecidableEq

/-- The file system: a path maps to the list of its lines when
`os.path.isfile` holds, and to `none` otherwise. -/
abbrev FileSystem := String → Option (List String)

/-- `os.path.isfile(path)`. -/
def isfile (fs : FileSystem) (path : String) : Bool := (fs path).isSome

/-- `load_wordlist(path)` from core.py: raise `FileNotFoundError` when the
path is not a file, else keep the stripped form of every line whose strip
is non-empty and whose raw text does not start with `#` (the startswith
test runs on the unstripped line in the source). -/
def load_wordlist (fs : FileSystem) (path : String) :
    Except EnumError (List String) :=
  match fs path with
  | none => .error (.fileNotFound ("Wordlist not found: " ++ path))
  | some lines =>
      .ok ((lines.filter (fun l => pyStrip l != "" && !(pyStartsWith l "#"))).map
        pyStrip)

/-- The `PRESET_NAMES` table of core.py. -/
def PRESET_NAMES : List (String × String × Option String) :=
  [("1", ("top1k", some "top1k.txt")),
   ("2", ("top10k", some "top10k.txt")),
   ("3", ("top25k", some "top25k.txt")),
   ("4", ("top50k", some "top50k.txt")),
   ("5", ("top100k", some "top100k.txt")),
   ("6", ("custom", none))]

/-- `get_preset_path(preset_id)` from core.py: table lookup with fallback
to `PRESET_NAMES["1"]` for unknown identifiers. -/
def get_preset_path (preset_id : String) : String × Option String :=
  match PRESET_NAMES.lookup preset_id with
  | some v => v
  | none => ("top1k", some "top1k.txt")

/-- The preset branch of wordlist selection in `enumerate_subdomains`
(core.py lines 146-150): load the preset file when the preset path is
non-null, else raise `ValueError`. -/
def select_preset_prefixes (fs : FileSystem) (preset_id : String) :
    Except EnumError (List String) :=
  match (get_preset_path preset_id).2 with
  | some preset_path => load_wordlist fs preset_path
  | none => .error (.valueError "Invalid preset or wordlist path")

/-- Wordlist selection of `enumerate_subdomains` (core.py lines 142-150):
`if wordlist_path and os.path.isfile(wordlist_path)` use the custom path,
else fall back to the preset branch.  A `None` or empty-string
`wordlist_path` is falsy in Python. -/
def select_prefixes (fs : FileSystem) (wordlist_path : Option String)
    (preset_id : String) : Except EnumError (List String) :=
  match wordlist_path with
  | some p =>
      if p != "" && isfile fs p then load_wordlist fs p
      else select_preset_prefixes fs preset_id
  | none => select_preset_prefixes fs preset_id

/-! ## core.py: passive fetch (crt.sh) -/

/-- Outcome of the single `requests.get` to crt.sh: `netError` covers a
raised exception (timeout, connection failure); otherwise a status code
plus a body, where `none` stands for a payload on which `r.json()`
raises and a parsed body is the list of entries' optional `name_value`
fields (`none` when the key is missing). -/
inductive HttpOutcome where
  | netError
  | response (status : Nat) (body : Option (List (Option String)))

/-- `fetch_crtsh_subdomains(domain)` from core.py.  Any exception and any
non-200 response yield `[]`; otherwise each entry's `name_value` is split
on newlines, each part stripped and lower-cased, a wildcard `*.` label
removed, and the part kept when it ends with the domain.  The Python
`set` is modelled by `dedup` (first-occurrence representative of the
unordered distinct collection). -/
def fetch_crtsh_subdomains (net : HttpOutcome) (domain : String) :
    List String :=
  match net with
  | .netError => []
  | .response status body =>
      if status != 200 then []
      else
        match body with
        | none => []
        | some data =>
            (data.foldl (fun acc entry =>
              match entry with
              | none => acc
              | some name =>
                  if name = "" then acc
                  else acc ++ (pySplitNl name).filterMap (fun part =>
                    let s := pyLower (pyStrip part)
                    let s := if pyContainsChar s '*' then pyReplace s "*." ""
                      else s
                    if pyEndsWith s domain then some s else none)) []).dedup

/-! ## core.py: DNS phase -/

/-- The DNS resolver: a host maps to its list of A records on success and
to `none` on any failure (no records, timeout, resolver error). -/
abbrev Resolver := String → Option (List String)

/-- `resolve_a(host, timeout)` from core.py: wrap a successful resolution
in a `{"host", "ips"}` record, collapse every failure to `none`. -/
def resolve_a (resolver : Resolver) (host : String) : Option ResolvedHost :=
  match resolver host with
  | some ips => some { host := host, ips := ips }
  | none => none

/-- `f"{prefix}.{domain}".strip().lower()` from `worker` in core.py. -/
def make_host (domain pfx : String) : String :=
  pyLower (pyStrip (pfx ++ "." ++ domain))

/-- `worker(prefix, domain, timeout)` from core.py. -/
def worker (resolver : Resolver) (domain pfx : String) : Option ResolvedHost :=
  resolve_a resolver (make_host domain pfx)

/-- The result accumulation of the `as_completed` loop in
`enumerate_subdomains`: every candidate is submitted once, failures are
dropped, successes are appended.  Completion order is a permutation of
submission order; the submission order is fixed as the representative,
and the properties proved below are permutation-invariant. -/
def dns_phase (resolver : Resolver) (domain : String) (pfxs : List String) :
    List ResolvedHost :=
  pfxs.filterMap (worker resolver domain)

/-! ## core.py: candidate augmentation and enumeration result -/

/-- Extraction of wordlist-style candidates from passive results
(core.py lines 155-160): keep subdomains ending in the domain, remove
every `.domain` occurrence, and drop empty or domain-equal remainders. -/
def extract_passive (domain : String) (passive_subs : List String) :
    List String :=
  passive_subs.filterMap (fun sub =>
    if pyEndsWith sub domain then
      let pfx := pyReplace sub ("." ++ domain) ""
      if pfx != "" && pfx != domain then some pfx else none
    else none)

/-- `prefixes = list(set(prefixes + extracted))` when passive is on
(core.py line 161), the wordlist unchanged otherwise.  The Python `set`
is modelled by `dedup`; only the length and membership of the result are
used downstream, both independent of the set's iteration order. -/
def augment_prefixes (passive : Bool) (wordlist extracted : List String) :
    List String :=
  if passive then (wordlist ++ extracted).dedup else wordlist

/-- `domain.encode('idna').decode('ascii')` with fallback
`domain.lower()`, then `.lower()` (core.py lines 135-140).  The IDNA
codec is kept abstract as an option-valued function. -/
def normalize_domain (idna : String → Option String) (domain : String) :
    String :=
  pyLower (match idna domain with
    | some d => d
    | none => pyLower domain)

/-- Values of the result dict literal at core.py lines 197-201. -/
inductive CoreValue where
  | vHosts (l : List ResolvedHost)
  | vNat (n : Nat)
  | vTime (t : ℚ)
deriving DecidableEq

/-- The external world of one enumeration run. -/
structure Env where
  fs : FileSystem
  resolver : Resolver
  net : HttpOutcome
  idna : String → Option String
  elapsed : ℚ

/-- `enumerate_subdomains(domain, wordlist_path, preset_id, passive, ...)`
from core.py: normalize the domain, select the wordlist, optionally merge
passive candidates, run the DNS phase, and return the literal dict
`{"subdomains": ..., "count": ..., "elapsed_time": ...}` (modelled as an
association list preserving the literal's key order). -/
def enumerate_subdomains (env : Env) (domain : String)
    (wordlist_path : Option String) (preset_id : String) (passive : Bool) :
    Except EnumError (List (String × CoreValue)) :=
  let d := normalize_domain env.idna domain
  match select_prefixes env.fs wordlist_path preset_id with
  | .error e => .error e
  | .ok wl =>
      let extracted :=
        if passive then extract_passive d (fetch_crtsh_subdomains env.net d)
        else []
      let pfxs := augment_prefixes passive wl extracted
      let results := dns_phase env.resolver d pfxs
      .ok [("subdomains", CoreValue.vHosts results),
           ("count", CoreValue.vNat results.length),
           ("elapsed_time", CoreValue.vTime env.elapsed)]

/-! ## core.py: DNS-phase progress thresholds -/

/-- `(completed / total_prefixes) * 100` (core.py line 183), in exact
rational arithmetic. -/
def pct (total completed : Nat) : ℚ := ((completed : ℚ) / (total : ℚ)) * 100

/-- The emission guard of core.py line 185: the computed percentage has
advanced at least 5 points past the last reported value, or equals 100. -/
def advanceOk (last p : ℚ) : Prop := last + 5 ≤ p ∨ p = 100

instance (last p : ℚ) : Decidable (advanceOk last p) := by
  unfold advanceOk; infer_instance

/-- The progress loop of core.py lines 179-187 restricted to its
percentage state: fold the completed counts in order, emitting the
percentage and updating `last_reported_percentage` exactly when
`advanceOk` holds.  Returns the emitted percentages and the final
reported value. -/
def progressRun (total : Nat) : ℚ → List Nat → List ℚ × ℚ
  | last, [] => ([], last)
  | last, c :: rest =>
      let p := pct total c
      if advanceOk last p then
        let next := progressRun total p rest
        (p :: next.1, next.2)
      else progressRun total last rest

/-- The percentages passed to `progress_callback` during a DNS phase with
`total` candidates: `completed` runs through `1, ..., total` (one
increment per completed future, independent of completion order) and
`last_reported_percentage` starts at `-5`. -/
def dnsProgressEvents (total : Nat) : List ℚ :=
  (progressRun total (-5) (List.range' 1 total)).1

/-! ## Error classification and claim-statement helpers -/

deriving instance DecidableEq for Except

/-- Does the computation fail with `FileNotFoundError`? -/
def isNotFound : Except EnumError (List String) → Bool
  | .error (.fileNotFound _) => true
  | _ => false

/-- Does the computation fail with `ValueError`? -/
def isValueError : Except EnumError (List String) → Bool
  | .error (.valueError _) => true
  | _ => false

/-- A custom wordlist path that is truthy and names an existing file
(the guard of core.py line 143). -/
def validCustom (fs : FileSystem) (wp : Option String) : Bool :=
  match wp with
  | some p => p != "" && isfile fs p
  | none => false

/-- The preset id resolves to a wordlist path naming an existing file. -/
def presetFileExists (fs : FileSystem) (pid : String) : Bool :=
  match (get_preset_path pid).2 with
  | some pp => isfile fs pp
  | none => false

/-- The error clauses of claim C6 instantiated at one input: not-found
exactly when neither a valid custom path nor a valid preset file exists,
and invalid-configuration exactly when the preset id resolves to a null
wordlist path and no custom path was supplied. -/
def claimC6At (fs : FileSystem) (wp : Option String) (pid : String) : Prop :=
  (isNotFound (select_prefixes fs wp pid) = true ↔
    (validCustom fs wp = false ∧ presetFileExists fs pid = false)) ∧
  (isValueError (select_prefixes fs wp pid) = true ↔
    ((get_preset_path pid).2 = none ∧ wp = none))

/-- Claim C7 instantiated at one wordlist and one extracted passive list:
the candidate total equals the wordlist size without passive mode and is
at least the wordlist size with it. -/
def claimC7At (wordlist extracted : List String) : Prop :=
  (augment_prefixes false wordlist extracted).length = wordlist.length ∧
  wordlist.length ≤ (augment_prefixes true wordlist extracted).length

/-- Claim C8 instantiated at one file system and path: not-found exactly
when the path is missing, and every returned entry is non-empty and does
not start with `#`. -/
def claimC8At (fs : FileSystem) (path : String) : Prop :=
  (isNotFound (load_wordlist fs path) = true ↔ fs path = none) ∧
  (∀ entries, load_wordlist fs path = .ok entries →
    ∀ e ∈ entries, e ≠ "" ∧ pyStartsWith e "#" = false)

/-- Concrete environment for the C1 witness: the preset file `top1k.txt`
holds the single line `www`, DNS resolution always fails, the passive
endpoint is unreachable, and the IDNA codec falls back. -/
def c1Env : Env :=
  { fs := fun p => if p = "top1k.txt" then some ["www"] else none
    resolver := fun _ => none
    net := .netError
    idna := fun _ => none
    elapsed := 0 }

/-- Concrete environment for the C10 witness: the preset file holds two
lines and exactly `www.example.com` resolves. -/
def c10Env : Env :=
  { fs := fun p => if p = "top1k.txt" then some ["www", "mail"] else none
    resolver := fun h => if h = "www.example.com" then some ["93.184.216.34"] else none
    net := .netError
    idna := fun _ => none
    elapsed := 0 }

/-! ## Progress lemmas -/

theorem pct_lt_100 {total c : Nat} (htot : 0 < total) (h : c < total) :
    pct total c < 100 := by
  have ht : (0 : ℚ) < total := by exact_mod_cast htot
  have hc : (c : ℚ) < total := by exact_mod_cast h
  unfold pct
  rw [div_mul_eq_mul_div, div_lt_iff₀ ht]
  nlinarith

theorem pct_self {total : Nat} (htot : 0 < total) : pct total total = 100 := by
  have ht : (total : ℚ) ≠ 0 := by exact_mod_cast Nat.pos_iff_ne_zero.mp htot
  unfold pct
  rw [div_self ht, one_mul]

theorem pct_strictMono {total a b : Nat} (htot : 0 < total) (h : a < b) :
    pct total a < pct total b := by
  have ht : (0 : ℚ) < total := by exact_mod_cast htot
  have hab : (a : ℚ) < b := by exact_mod_cast h
  unfold pct
  have hdiv : (a : ℚ) / total < (b : ℚ) / total := by gcongr
  exact mul_lt_mul_of_pos_right hdiv (by norm_num)

theorem progressRun_append (total : Nat) (cs₁ cs₂ : List Nat) (last : ℚ) :
    progressRun total last (cs₁ ++ cs₂) =
      ((progressRun total last cs₁).1 ++
        (progressRun total (progressRun total last cs₁).2 cs₂).1,
       (progressRun total (progressRun total last cs₁).2 cs₂).2) := by
  induction cs₁ generalizing last with
  | nil => simp [progressRun]
  | cons c rest ih =>
      simp only [List.cons_append, progressRun]
      by_cases h : advanceOk last (pct total c)
      · simp only [if_pos h, List.append_eq, ih, List.cons_append]
      · simp only [if_neg h, List.append_eq, ih]

theorem progressRun_sublist (total : Nat) (cs : List Nat) (last : ℚ) :
    List.Sublist (progressRun total last cs).1 (cs.map (pct total)) := by
  induction cs generalizing last with
  | nil => simp [progressRun]
  | cons c rest ih =>
      simp only [progressRun, List.map_cons]
      by_cases h : advanceOk last (pct total c)
      · simp only [if_pos h]
        exact (ih _).cons₂ _
      · simp only [if_neg h]
        exact (ih _).cons _

theorem progressRun_chain (total : Nat) (cs : List Nat) (last : ℚ) :
    List.Chain advanceOk last (progressRun total last cs).1 := by
  induction cs generalizing last with
  | nil => simp [progressRun]
  | cons c rest ih =>
      simp only [progressRun]
      by_cases h : advanceOk last (pct total c)
      · simp only [if_pos h]
        exact List.Chain.cons h (ih _)
      · simp only [if_neg h]
        exact ih _

theorem progressRun_length_le (total : Nat) (cs : List Nat)
    (hlt : ∀ c ∈ cs, pct total c < 100) :
    ∀ (last : ℚ) (k : Nat), (95 : ℚ) ≤ last + 5 * k →
      (progressRun total last cs).1.length ≤ k := by
  induction cs with
  | nil => intro last k _; simp [progressRun]
  | cons c rest ih =>
      intro last k hk
      have hc : pct total c < 100 := hlt c (List.mem_cons_self c rest)
      have hrest : ∀ x ∈ rest, pct total x < 100 :=
        fun x hx => hlt x (List.mem_cons_of_mem c hx)
      simp only [progressRun]
      by_cases h : advanceOk last (pct total c)
      · have hadv : last + 5 ≤ pct total c := by
          rcases h with h | h
          · exact h
          · exact absurd h (ne_of_lt hc)
        match k with
        | 0 =>
            exfalso
            have hk' : (95 : ℚ) ≤ last := by push_cast at hk; linarith
            linarith
        | k' + 1 =>
            simp only [if_pos h, List.length_cons]
            have hk' : (95 : ℚ) ≤ pct total c + 5 * k' := by
              push_cast at hk ⊢
              linarith
            exact Nat.succ_le_succ (ih hrest _ k' hk')
      · simp only [if_neg h]
        exact ih hrest last k hk

/-- The final iteration of the loop (`completed = total`) always emits:
its percentage is exactly 100, satisfying the right disjunct of the
guard. -/
theorem progressRun_final (total : Nat) (htot : 0 < total) (last : ℚ) :
    (progressRun total last [total]).1 = [100] := by
  have h : advanceOk last (pct total total) := Or.inr (pct_self htot)
  simp only [progressRun, if_pos h]
  simp [pct_self htot]

theorem progressRun_singleton_length (total : Nat) (last : ℚ) (c : Nat) :
    (progressRun total last [c]).1.length ≤ 1 := by
  simp only [progressRun]
  by_cases h : advanceOk last (pct total c)
  · simp [if_pos h, progressRun]
  · simp [if_neg h, progressRun]

/-- C3.  For every DNS-phase run with a progress callback and at least one
candidate: the emitted percentage sequence is monotonically
non-decreasing; every emitted percentage satisfies the guard relative to
the previously reported value (`advanceOk`: advanced at least 5 points,
or reached 100), starting from the initial `-5`; and the last emitted
percentage is at least 95 (it is exactly 100). -/
theorem c3_dns_progress_events (total : Nat) (htot : 1 ≤ total) :
    List.Pairwise (· ≤ ·) (dnsProgressEvents total) ∧
    List.Chain advanceOk (-5) (dnsProgressEvents total) ∧
    ∃ p, (dnsProgressEvents total).getLast? = some p ∧ (95 : ℚ) ≤ p := by
  refine ⟨?_, progressRun_chain total (List.range' 1 total) (-5), ?_⟩
  · have hsub := progressRun_sublist total (List.range' 1 total) (-5)
    have hmap : ((List.range' 1 total).map (pct total)).Pairwise (· < ·) :=
      List.Pairwise.map (pct total)
        (fun a b hab => pct_strictMono (by omega) hab)
        (List.pairwise_lt_range' 1 total)
    exact (List.Pairwise.sublist hsub hmap).imp le_of_lt
  · obtain ⟨n, rfl⟩ : ∃ n, total = n + 1 := ⟨total - 1, by omega⟩
    refine ⟨100, ?_, by norm_num⟩
    unfold dnsProgressEvents
    rw [List.range'_1_concat, progressRun_append]
    have h1n : 1 + n = n + 1 := Nat.add_comm 1 n
    rw [h1n, progressRun_final (n + 1) (by omega)]
    exact List.getLast?_concat _

/-- C3 witness at `total = 2` (events `[50, 100]`). -/
theorem c3_dns_progress_events_witness :
    1 ≤ 2 ∧
    (List.Pairwise (· ≤ ·) (dnsProgressEvents 2) ∧
     List.Chain advanceOk (-5) (dnsProgressEvents 2) ∧
     ∃ p, (dnsProgressEvents 2).getLast? = some p ∧ (95 : ℚ) ≤ p) :=
  ⟨by norm_num, c3_dns_progress_events 2 (by norm_num)⟩

/-- C4.  For every DNS-phase run with `total ≥ 1` candidates, the progress
callback is invoked at most 21 times. -/
theorem c4_dns_progress_event_bound (total : Nat) (htot : 1 ≤ total) :
    (dnsProgressEvents total).length ≤ 21 := by
  obtain ⟨n, rfl⟩ : ∃ n, total = n + 1 := ⟨total - 1, by omega⟩
  unfold dnsProgressEvents
  rw [List.range'_1_concat, progressRun_append]
  have h1 : (progressRun (n + 1) (-5) (List.range' 1 n)).1.length ≤ 20 := by
    apply progressRun_length_le
    · intro c hc
      rw [List.mem_range'_1] at hc
      exact pct_lt_100 (by omega) (by omega)
    · push_cast
      norm_num
  have h2 := progressRun_singleton_length (n + 1)
    (progressRun (n + 1) (-5) (List.range' 1 n)).2 (1 + n)
  rw [List.length_append]
  omega

/-- C4 witness at `total = 5`. -/
theorem c4_dns_progress_event_bound_witness :
    1 ≤ 5 ∧ (dnsProgressEvents 5).length ≤ 21 :=
  ⟨by norm_num, c4_dns_progress_event_bound 5 (by norm_num)⟩

/-! ## HTTP validation lemmas -/

theorem pyTruthy_ne_some_zero {o : Option Nat} (h : pyTruthy o = true) :
    o ≠ some 0 := by
  intro heq
  subst heq
  simp [pyTruthy] at h

theorem eq_none_of_not_pyTruthy {o : Option Nat} (hf : pyTruthy o = false)
    (hz : o ≠ some 0) : o = none := by
  match o with
  | none => rfl
  | some n =>
      exfalso
      apply hz
      have hn : n = 0 := by
        by_contra hne
        simp [pyTruthy, hne] at hf
      rw [hn]

theorem pyTruthy_of_ne {o : Option Nat} (hn : o ≠ none) (hz : o ≠ some 0) :
    pyTruthy o = true := by
  match o with
  | none => exact absurd rfl hn
  | some n =>
      have : n ≠ 0 := fun h => hz (by rw [h])
      simp [pyTruthy, this]

/-- `check_http` never reports status `0`: a falsy probe result is never
copied into the returned record. -/
theorem check_http_status_ne_some_zero (probe : String → Option Nat)
    (sd : String) (ips : List String) :
    (check_http probe sd ips).status ≠ some 0 := by
  simp only [check_http]
  split
  · next h => exact pyTruthy_ne_some_zero h
  · split
    · next h => exact pyTruthy_ne_some_zero h
    · simp

/-- The input subdomain and IP list pass through `check_http` unchanged. -/
theorem check_http_fields (probe : String → Option Nat) (sd : String)
    (ips : List String) :
    (check_http probe sd ips).subdomain = sd ∧
    (check_http probe sd ips).ips = ips := by
  simp only [check_http]
  split
  · exact ⟨rfl, rfl⟩
  · split
    · exact ⟨rfl, rfl⟩
    · exact ⟨rfl, rfl⟩

theorem length_filter_add_length_filter_not {α : Type} (p : α → Bool)
    (l : List α) :
    (l.filter p).length + (l.filter (fun a => !(p a))).length = l.length := by
  induction l with
  | nil => simp
  | cons a t ih =>
      by_cases h : p a <;> simp [List.filter_cons, h] <;> omega

/-- C2.  Every resolved host given to `validate_subdomains` lands in
exactly one of the two output collections: in `live_web_services` when
its probe result has a non-null status, in `dns_only` when the status is
null; the two lengths add up to the number of resolved hosts.  Moreover
the number of resolved hosts the DNS phase produces is at most the
candidate total. -/
theorem c2_validation_partition :
    (∀ (probe : String → Option Nat) (hosts : List ResolvedHost),
      ((validate_subdomains probe hosts).live_web_services.length +
        (validate_subdomains probe hosts).dns_only.length = hosts.length) ∧
      (∀ h ∈ hosts,
        ((check_http probe h.host h.ips).status ≠ none →
          check_http probe h.host h.ips ∈
            (validate_subdomains probe hosts).live_web_services) ∧
        ((check_http probe h.host h.ips).status = none →
          ({ subdomain := h.host, ips := h.ips } : DnsOnlyResult) ∈
            (validate_subdomains probe hosts).dns_only)) ∧
      (∀ v ∈ (validate_subdomains probe hosts).live_web_services,
        v.status ≠ none) ∧
      (∀ d ∈ (validate_subdomains probe hosts).dns_only,
        ∃ h ∈ hosts, d.subdomain = h.host ∧ d.ips = h.ips ∧
          (check_http probe h.host h.ips).status = none)) ∧
    (∀ (resolver : Resolver) (domain : String) (pfxs : List String),
      (dns_phase resolver domain pfxs).length ≤ pfxs.length) := by
  constructor
  · intro probe hosts
    refine ⟨?_, ?_, ?_, ?_⟩
    · simp only [validate_subdomains, List.length_map]
      rw [length_filter_add_length_filter_not
        (fun r => pyTruthy r.status)
        (hosts.map (fun r => check_http probe r.host r.ips))]
      exact List.length_map _ _
    · intro h hmem
      have hres : check_http probe h.host h.ips ∈
          hosts.map (fun r => check_http probe r.host r.ips) :=
        List.mem_map_of_mem _ hmem
      constructor
      · intro hne
        have ht : pyTruthy (check_http probe h.host h.ips).status = true :=
          pyTruthy_of_ne hne (check_http_status_ne_some_zero probe h.host h.ips)
        exact List.mem_filter.mpr ⟨hres, ht⟩
      · intro hnone
        have hf : pyTruthy (check_http probe h.host h.ips).status = false := by
          rw [hnone]; rfl
        have hmemf : check_http probe h.host h.ips ∈
            (hosts.map (fun r => check_http probe r.host r.ips)).filter
              (fun r => !(pyTruthy r.status)) :=
          List.mem_filter.mpr ⟨hres, by rw [hf]; rfl⟩
        have himg := List.mem_map_of_mem
          (fun r : ValidationResult =>
            ({ subdomain := r.subdomain, ips := r.ips } : DnsOnlyResult)) hmemf
        have hfields := check_http_fields probe h.host h.ips
        simpa [validate_subdomains, hfields.1, hfields.2] using himg
    · intro v hv
      have := List.mem_filter.mp hv
      intro hnone
      rw [hnone] at this
      simp [pyTruthy] at this
    · intro d hd
      simp only [validate_subdomains, List.mem_map] at hd
      obtain ⟨r, hrf, hrd⟩ := hd
      have hr := List.mem_filter.mp hrf
      obtain ⟨h, hh, hcheck⟩ := List.mem_map.mp hr.1
      subst hcheck
      refine ⟨h, hh, ?_, ?_, ?_⟩
      · rw [← hrd]
        exact (check_http_fields probe h.host h.ips).1
      · rw [← hrd]
        exact (check_http_fields probe h.host h.ips).2
      · have hf : pyTruthy (check_http probe h.host h.ips).status = false := by
          have h2 := hr.2
          simp only [Bool.not_eq_true'] at h2
          exact h2
        exact eq_none_of_not_pyTruthy hf
          (check_http_status_ne_some_zero probe h.host h.ips)
  · intro resolver domain pfxs
    exact List.length_filterMap_le _ _

/-- C2 witness: one resolved host whose `http://` probe answers 200. -/
theorem c2_validation_partition_witness :
    ((validate_subdomains (fun u => if u = "http://a.x" then some 200 else none)
        [{ host := "a.x", ips := ["1.1.1.1"] }]).live_web_services.length +
      (validate_subdomains (fun u => if u = "http://a.x" then some 200 else none)
        [{ host := "a.x", ips := ["1.1.1.1"] }]).dns_only.length = 1) ∧
    check_http (fun u => if u = "http://a.x" then some 200 else none) "a.x"
        ["1.1.1.1"] ∈
      (validate_subdomains (fun u => if u = "http://a.x" then some 200 else none)
        [{ host := "a.x", ips := ["1.1.1.1"] }]).live_web_services := by
  refine ⟨(c2_validation_partition.1 _ _).1, ?_⟩
  exact ((c2_validation_partition.1 _
      [{ host := "a.x", ips := ["1.1.1.1"] }]).2.1
    { host := "a.x", ips := ["1.1.1.1"] } (by simp)).1 (by decide)

/-- C5.  `check_http` probes `http://` first and `https://` only when the
first scheme yields no status; the returned record carries the URL and
status of the first scheme that answered; `url` and `status` are null
exactly when neither scheme responded; the IP list passes through
unchanged.  The hypothesis records that an HTTP status code obtained from
a response is never `0` (the source treats the status as a truthy
integer). -/
theorem c5_check_http_scheme_order (probe : String → Option Nat)
    (sd : String) (ips : List String) (hz : ∀ u, probe u ≠ some 0) :
    (check_http probe sd ips).ips = ips ∧
    (check_http probe sd ips).subdomain = sd ∧
    (∀ s, probe ("http://" ++ sd) = some s →
      (check_http probe sd ips).url = some ("http://" ++ sd) ∧
      (check_http probe sd ips).status = some s) ∧
    (probe ("http://" ++ sd) = none →
      ∀ s, probe ("https://" ++ sd) = some s →
        (check_http probe sd ips).url = some ("https://" ++ sd) ∧
        (check_http probe sd ips).status = some s) ∧
    ((check_http probe sd ips).url = none ∧
        (check_http probe sd ips).status = none ↔
      probe ("http://" ++ sd) = none ∧ probe ("https://" ++ sd) = none) := by
  have hz1 := hz ("http://" ++ sd)
  have hz2 := hz ("https://" ++ sd)
  rcases e1 : probe ("http://" ++ sd) with _ | n1
  · rcases e2 : probe ("https://" ++ sd) with _ | n2
    · simp [check_http, e1, e2, pyTruthy]
    · have hn2 : n2 ≠ 0 := by
        rintro rfl
        exact hz2 e2
      simp [check_http, e1, e2, pyTruthy, hn2]
  · have hn1 : n1 ≠ 0 := by
      rintro rfl
      exact hz1 e1
    simp [check_http, e1, pyTruthy, hn1]

/-- C5 witness: a host whose `http://` probe fails and whose `https://`
probe answers 301; the record carries the https URL and status. -/
theorem c5_check_http_scheme_order_witness :
    (check_http (fun u => if u = "https://b.y" then some 301 else none) "b.y"
        ["2.2.2.2"]).ips = ["2.2.2.2"] ∧
    (check_http (fun u => if u = "https://b.y" then some 301 else none) "b.y"
        ["2.2.2.2"]).subdomain = "b.y" ∧
    (∀ s, (fun u => if u = "https://b.y" then some 301 else none)
        ("http://" ++ "b.y") = some s →
      (check_http (fun u => if u = "https://b.y" then some 301 else none) "b.y"
          ["2.2.2.2"]).url = some ("http://" ++ "b.y") ∧
      (check_http (fun u => if u = "https://b.y" then some 301 else none) "b.y"
          ["2.2.2.2"]).status = some s) ∧
    ((fun u => if u = "https://b.y" then some 301 else none)
        ("http://" ++ "b.y") = none →
      ∀ s, (fun u => if u = "https://b.y" then some 301 else none)
          ("https://" ++ "b.y") = some s →
        (check_http (fun u => if u = "https://b.y" then some 301 else none)
            "b.y" ["2.2.2.2"]).url = some ("https://" ++ "b.y") ∧
        (check_http (fun u => if u = "https://b.y" then some 301 else none)
            "b.y" ["2.2.2.2"]).status = some s) ∧
    ((check_http (fun u => if u = "https://b.y" then some 301 else none) "b.y"
          ["2.2.2.2"]).url = none ∧
        (check_http (fun u => if u = "https://b.y" then some 301 else none)
          "b.y" ["2.2.2.2"]).status = none ↔
      (fun u => if u = "https://b.y" then some 301 else none)
          ("http://" ++ "b.y") = none ∧
        (fun u => if u = "https://b.y" then some 301 else none)
          ("https://" ++ "b.y") = none) :=
  c5_check_http_scheme_order
    (fun u => if u = "https://b.y" then some 301 else none) "b.y" ["2.2.2.2"]
    (by
      intro u
      by_cases h : u = "https://b.y" <;> simp [h])

/-! ## Enumeration result shape (C1, C10) -/

/-- C1 (the code refutes the claimed shape).  Whenever
`enumerate_subdomains` returns successfully, the returned dict has
exactly the keys `subdomains`, `count`, `elapsed_time`; in particular
`live_web_services` and `dns_only` are absent, so the synchronous caller
in api.py reading `result["live_web_services"]` raises `KeyError`. -/
theorem c1_core_result_keys (env : Env) (domain : String)
    (wordlist_path : Option String) (preset_id : String) (passive : Bool)
    (d : List (String × CoreValue))
    (hok : enumerate_subdomains env domain wordlist_path preset_id passive =
      .ok d) :
    d.map Prod.fst = ["subdomains", "count", "elapsed_time"] ∧
    d.lookup "live_web_services" = none ∧
    d.lookup "dns_only" = none := by
  rcases hsel : select_prefixes env.fs wordlist_path preset_id with e | wl
  · simp only [enumerate_subdomains, hsel] at hok
    exact Except.noConfusion hok
  · simp only [enumerate_subdomains, hsel, Except.ok.injEq] at hok
    subst hok
    exact ⟨rfl, rfl, rfl⟩

/-- C1 witness: a concrete run (preset `1`, one wordlist line, all
resolutions fail) returning the three-key dict. -/
theorem c1_core_result_keys_witness :
    (enumerate_subdomains c1Env "example.com" none "1" false =
      .ok [("subdomains", CoreValue.vHosts []), ("count", CoreValue.vNat 0),
           ("elapsed_time", CoreValue.vTime 0)]) ∧
    ([("subdomains", CoreValue.vHosts []), ("count", CoreValue.vNat 0),
      ("elapsed_time", CoreValue.vTime 0)].map Prod.fst =
        ["subdomains", "count", "elapsed_time"] ∧
     [("subdomains", CoreValue.vHosts []), ("count", CoreValue.vNat 0),
      ("elapsed_time", CoreValue.vTime 0)].lookup "live_web_services" = none ∧
     [("subdomains", CoreValue.vHosts []), ("count", CoreValue.vNat 0),
      ("elapsed_time", CoreValue.vTime 0)].lookup "dns_only" = none) :=
  ⟨by decide,
   c1_core_result_keys c1Env "example.com" none "1" false _ (by decide)⟩

theorem resolve_a_some (resolver : Resolver) (h : String) (r : ResolvedHost)
    (he : resolve_a resolver h = some r) :
    r.host = h ∧ resolver h = some r.ips := by
  unfold resolve_a at he
  cases e : resolver h with
  | none => rw [e] at he; cases he
  | some ips =>
      rw [e] at he
      injection he with h2
      subst h2
      exact ⟨rfl, rfl⟩

/-- C10.  A successful `enumerate_subdomains` run returns a dict whose
`count` is the length of its `subdomains` list, and the DNS phase
outputs exactly the candidates whose resolution succeeded: every
successful worker result is in the output, every output element comes
from a successful worker call (carrying that candidate's host name), and
the host of a failed candidate appears nowhere. -/
theorem c10_count_and_membership :
    (∀ (env : Env) (domain : String) (wp : Option String) (pid : String)
        (passive : Bool) (d : List (String × CoreValue)),
      enumerate_subdomains env domain wp pid passive = .ok d →
      ∃ results : List ResolvedHost,
        d.lookup "subdomains" = some (CoreValue.vHosts results) ∧
        d.lookup "count" = some (CoreValue.vNat results.length)) ∧
    (∀ (resolver : Resolver) (domain : String) (pfxs : List String),
      (∀ pfx ∈ pfxs, ∀ r, worker resolver domain pfx = some r →
        r ∈ dns_phase resolver domain pfxs) ∧
      (∀ r ∈ dns_phase resolver domain pfxs,
        ∃ pfx ∈ pfxs, worker resolver domain pfx = some r ∧
          r.host = make_host domain pfx) ∧
      (∀ pfx ∈ pfxs, worker resolver domain pfx = none →
        ∀ r ∈ dns_phase resolver domain pfxs,
          r.host ≠ make_host domain pfx)) := by
  constructor
  · intro env domain wp pid passive d hok
    rcases hsel : select_prefixes env.fs wp pid with e | wl
    · simp only [enumerate_subdomains, hsel] at hok
      exact Except.noConfusion hok
    · simp only [enumerate_subdomains, hsel, Except.ok.injEq] at hok
      subst hok
      exact ⟨_, rfl, rfl⟩
  · intro resolver domain pfxs
    refine ⟨?_, ?_, ?_⟩
    · intro pfx hp r hw
      exact List.mem_filterMap.mpr ⟨pfx, hp, hw⟩
    · intro r hr
      obtain ⟨q, hq, hwq⟩ := List.mem_filterMap.mp hr
      exact ⟨q, hq, hwq, (resolve_a_some resolver (make_host domain q) r hwq).1⟩
    · intro pfx hp hnone r hr heq
      obtain ⟨q, hq, hwq⟩ := List.mem_filterMap.mp hr
      have hq2 := resolve_a_some resolver (make_host domain q) r hwq
      have hqp : make_host domain q = make_host domain pfx :=
        hq2.1.symm.trans heq
      have hres : resolver (make_host domain pfx) = some r.ips :=
        hqp ▸ hq2.2
      have hw : worker resolver domain pfx =
          some { host := make_host domain pfx, ips := r.ips } := by
        unfold worker resolve_a
        rw [hres]
      rw [hnone] at hw
      cases hw

/-- C10 witness: a run where exactly `www.example.com` resolves; its
count field equals the one-element subdomains list length, and the
resolved host is present in the DNS-phase output. -/
theorem c10_count_and_membership_witness :
    (enumerate_subdomains c10Env "example.com" none "1" false =
      .ok [("subdomains", CoreValue.vHosts
              [{ host := "www.example.com", ips := ["93.184.216.34"] }]),
           ("count", CoreValue.vNat 1),
           ("elapsed_time", CoreValue.vTime 0)]) ∧
    (∃ results : List ResolvedHost,
      [("subdomains", CoreValue.vHosts
          [{ host := "www.example.com", ips := ["93.184.216.34"] }]),
       ("count", CoreValue.vNat 1),
       ("elapsed_time", CoreValue.vTime 0)].lookup "subdomains" =
          some (CoreValue.vHosts results) ∧
      [("subdomains", CoreValue.vHosts
          [{ host := "www.example.com", ips := ["93.184.216.34"] }]),
       ("count", CoreValue.vNat 1),
       ("elapsed_time", CoreValue.vTime 0)].lookup "count" =
          some (CoreValue.vNat results.length)) ∧
    ({ host := "www.example.com", ips := ["93.184.216.34"] } : ResolvedHost) ∈
      dns_phase c10Env.resolver "example.com" ["www", "mail"] :=
  ⟨by decide,
   c10_count_and_membership.1 c10Env "example.com" none "1" false _ (by decide),
   (c10_count_and_membership.2 c10Env.resolver "example.com"
      ["www", "mail"]).1 "www" (by decide) _ (by decide)⟩

/-! ## Passive fetch failures (C9) -/

/-- C9.  The passive crt.sh fetch absorbs every failure: a raised network
exception, any non-200 response, and a malformed payload all yield the
empty result list.  The function is total (`List String`-valued, no
exception channel), which models "never raises to its caller". -/
theorem c9_crtsh_failures_empty (domain : String) (status : Nat)
    (body : Option (List (Option String))) (hs : status ≠ 200) :
    fetch_crtsh_subdomains .netError domain = [] ∧
    fetch_crtsh_subdomains (.response status body) domain = [] ∧
    fetch_crtsh_subdomains (.response 200 none) domain = [] := by
  refine ⟨rfl, ?_, rfl⟩
  unfold fetch_crtsh_subdomains
  have hb : (status != 200) = true := bne_iff_ne.mpr hs
  simp [hb]

/-- C9 witness: unreachable endpoint, a 500 response and a 200 response
with unparseable body, all for `example.com`. -/
theorem c9_crtsh_failures_empty_witness :
    (500 ≠ 200) ∧
    (fetch_crtsh_subdomains .netError "example.com" = [] ∧
     fetch_crtsh_subdomains (.response 500 (some [])) "example.com" = [] ∧
     fetch_crtsh_subdomains (.response 200 none) "example.com" = []) :=
  ⟨by decide, c9_crtsh_failures_empty "example.com" 500 (some []) (by decide)⟩

/-! ## Candidate totals (C7) -/

/-- C7 as stated is false: `list(set(prefixes + extracted))` collapses
duplicate wordlist entries, so for the two-entry wordlist
`["www", "www"]` with no passive additions the candidate total drops to
1 < 2. -/
theorem c7_counterexample : ¬ claimC7At ["www", "www"] [] := by
  unfold claimC7At
  decide

/-- C7 amended.  Without passive augmentation the total equals the
wordlist size; with it, the total is at least the number of distinct
wordlist entries, and hence at least the wordlist size whenever the
wordlist is duplicate-free. -/
theorem c7_amended_total_bounds (wordlist extracted : List String) :
    (augment_prefixes false wordlist extracted).length = wordlist.length ∧
    wordlist.dedup.length ≤ (augment_prefixes true wordlist extracted).length ∧
    (wordlist.Nodup →
      wordlist.length ≤ (augment_prefixes true wordlist extracted).length) := by
  have hsub : wordlist.toFinset ⊆ (wordlist ++ extracted).toFinset := by
    rw [List.toFinset_append]
    exact Finset.subset_union_left
  have hcard := Finset.card_le_card hsub
  rw [List.card_toFinset, List.card_toFinset] at hcard
  refine ⟨by simp [augment_prefixes], ?_, ?_⟩
  · simpa [augment_prefixes] using hcard
  · intro hnd
    have hself : wordlist.dedup = wordlist := List.dedup_eq_self.mpr hnd
    calc wordlist.length = wordlist.dedup.length := by rw [hself]
      _ ≤ (augment_prefixes true wordlist extracted).length := by
          simpa [augment_prefixes] using hcard

/-- C7 witness: duplicate-free wordlist `["a", "b"]` with passive
additions `["b", "c"]` keeps the total at least 2. -/
theorem c7_amended_total_bounds_witness :
    List.Nodup ["a", "b"] ∧
    List.length ["a", "b"] ≤
      (augment_prefixes true ["a", "b"] ["b", "c"]).length :=
  ⟨by decide, (c7_amended_total_bounds ["a", "b"] ["b", "c"]).2.2 (by decide)⟩

/-! ## Wordlist-source errors (C6) and wordlist contents (C8) -/

theorem isfile_false_iff (fs : FileSystem) (p : String) :
    isfile fs p = false ↔ fs p = none := by
  unfold isfile
  cases fs p <;> simp

theorem load_wordlist_isNotFound (fs : FileSystem) (path : String) :
    isNotFound (load_wordlist fs path) = true ↔ fs path = none := by
  unfold load_wordlist
  cases h : fs path with
  | none => simp [isNotFound, h]
  | some lines => simp [isNotFound, h]

theorem load_wordlist_not_valueError (fs : FileSystem) (path : String) :
    isValueError (load_wordlist fs path) = false := by
  unfold load_wordlist
  cases h : fs path with
  | none => simp [isValueError, h]
  | some lines => simp [isValueError, h]

theorem select_prefixes_of_not_validCustom (fs : FileSystem)
    (wp : Option String) (pid : String) (hv : validCustom fs wp = false) :
    select_prefixes fs wp pid = select_preset_prefixes fs pid := by
  cases wp with
  | none => rfl
  | some p =>
      have hv' : (p != "" && isfile fs p) = false := hv
      simp [select_prefixes, hv']

/-- C6 as stated is false at one input: with no file system entry at all,
a supplied (but non-existent) custom path `w.txt` and the custom preset
`6` (null wordlist path), the source raises `ValueError`, whereas the
claim requires `FileNotFoundError` there (neither a valid custom path
nor a valid preset file exists) and forbids `ValueError` (a custom path
was supplied). -/
theorem c6_counterexample : ¬ claimC6At (fun _ => none) (some "w.txt") "6" := by
  unfold claimC6At
  decide

/-- C6 amended.  Not-found is raised exactly when no valid custom path
exists, the preset id resolves to a non-null wordlist path, and that
preset file is missing; invalid-configuration is raised exactly when no
valid custom path exists (none supplied, or the supplied one does not
exist) and the preset id resolves to a null path.  An unknown preset id
falls back to the first preset, and an existing custom path takes
precedence over any preset. -/
theorem c6_amended_source_resolution (fs : FileSystem) (wp : Option String)
    (pid : String) :
    (isNotFound (select_prefixes fs wp pid) = true ↔
      (validCustom fs wp = false ∧
        ∃ pp, (get_preset_path pid).2 = some pp ∧ isfile fs pp = false)) ∧
    (isValueError (select_prefixes fs wp pid) = true ↔
      (validCustom fs wp = false ∧ (get_preset_path pid).2 = none)) ∧
    (PRESET_NAMES.lookup pid = none → get_preset_path pid = get_preset_path "1") ∧
    (∀ p, wp = some p → validCustom fs wp = true →
      select_prefixes fs wp pid = load_wordlist fs p) := by
  have hprecedence : ∀ p, wp = some p → validCustom fs wp = true →
      select_prefixes fs wp pid = load_wordlist fs p := by
    intro p hp hv
    subst hp
    have hv' : (p != "" && isfile fs p) = true := hv
    simp [select_prefixes, hv']
  have hpreset_nf : isNotFound (select_preset_prefixes fs pid) = true ↔
      ∃ pp, (get_preset_path pid).2 = some pp ∧ isfile fs pp = false := by
    cases hgp : (get_preset_path pid).2 with
    | none => simp [select_preset_prefixes, hgp, isNotFound]
    | some pp =>
        simp only [select_preset_prefixes, hgp]
        rw [load_wordlist_isNotFound]
        constructor
        · intro hnone
          exact ⟨pp, rfl, (isfile_false_iff fs pp).mpr hnone⟩
        · rintro ⟨pp', hpp', hfile⟩
          injection hpp' with h'
          subst h'
          exact (isfile_false_iff _ _).mp hfile
  have hpreset_ve : isValueError (select_preset_prefixes fs pid) = true ↔
      (get_preset_path pid).2 = none := by
    cases hgp : (get_preset_path pid).2 with
    | none => simp [select_preset_prefixes, hgp, isValueError]
    | some pp =>
        simp [select_preset_prefixes, hgp, load_wordlist_not_valueError]
  refine ⟨?_, ?_, ?_, hprecedence⟩
  · by_cases hv : validCustom fs wp = true
    · obtain ⟨p, hp⟩ : ∃ p, wp = some p := by
        cases wp with
        | none => exact absurd hv (by simp [validCustom])
        | some p => exact ⟨p, rfl⟩
      rw [hprecedence p hp hv, load_wordlist_isNotFound]
      constructor
      · intro hnone
        subst hp
        have hvv : (p != "" && isfile fs p) = true := hv
        rw [Bool.and_eq_true] at hvv
        have hfile := hvv.2
        rw [(isfile_false_iff fs p).mpr hnone] at hfile
        cases hfile
      · rintro ⟨hvf, _⟩
        rw [hv] at hvf
        cases hvf
    · have hvf : validCustom fs wp = false := by
        cases hb : validCustom fs wp
        · rfl
        · exact absurd hb hv
      rw [select_prefixes_of_not_validCustom fs wp pid hvf, hpreset_nf]
      simp [hvf]
  · by_cases hv : validCustom fs wp = true
    · obtain ⟨p, hp⟩ : ∃ p, wp = some p := by
        cases wp with
        | none => exact absurd hv (by simp [validCustom])
        | some p => exact ⟨p, rfl⟩
      rw [hprecedence p hp hv, load_wordlist_not_valueError]
      constructor
      · intro hfalse
        cases hfalse
      · rintro ⟨hvf, _⟩
        rw [hv] at hvf
        cases hvf
    · have hvf : validCustom fs wp = false := by
        cases hb : validCustom fs wp
        · rfl
        · exact absurd hb hv
      rw [select_prefixes_of_not_validCustom fs wp pid hvf, hpreset_ve]
      simp [hvf]
  · intro hlk
    unfold get_preset_path
    rw [hlk]
    rfl

/-- C6 witness: an existing custom path takes precedence over preset `2`,
and an unknown preset id falls back to the first preset. -/
theorem c6_amended_source_resolution_witness :
    (select_prefixes (fun p => if p = "w.txt" then some ["x"] else none)
        (some "w.txt") "2" =
      load_wordlist (fun p => if p = "w.txt" then some ["x"] else none)
        "w.txt") ∧
    get_preset_path "unknown" = get_preset_path "1" :=
  ⟨(c6_amended_source_resolution
      (fun p => if p = "w.txt" then some ["x"] else none)
      (some "w.txt") "2").2.2.2 "w.txt" rfl (by decide),
   (c6_amended_source_resolution (fun _ => none) none "unknown").2.2.1
     (by decide)⟩

/-- C8 as stated is false at one input: the file `w.txt` holding the
single line `" #note"` (leading blank before `#`) passes the source's
pre-strip `startswith('#')` test, so the stripped entry `"#note"` is
returned even though it starts with the comment character. -/
theorem c8_counterexample :
    ¬ claimC8At (fun p => if p = "w.txt" then some [" #note"] else none)
      "w.txt" := by
  intro h
  have hload : load_wordlist
      (fun p => if p = "w.txt" then some [" #note"] else none) "w.txt" =
      .ok ["#note"] := by decide
  have h2 := (h.2 ["#note"] hload "#note" (List.mem_singleton.mpr rfl)).2
  exact absurd h2 (by decide)

/-- C8 amended.  Loading raises not-found exactly when the path names no
file; every returned entry is non-empty and is the stripped form of a
line whose raw (unstripped) text does not start with `#` — the entry
itself may still start with `#` when the line had leading whitespace. -/
theorem c8_amended_wordlist_entries (fs : FileSystem) (path : String) :
    (isNotFound (load_wordlist fs path) = true ↔ fs path = none) ∧
    (∀ lines entries, fs path = some lines →
      load_wordlist fs path = .ok entries →
      ∀ e ∈ entries, e ≠ "" ∧
        ∃ l ∈ lines, pyStartsWith l "#" = false ∧ pyStrip l ≠ "" ∧
          e = pyStrip l) := by
  refine ⟨load_wordlist_isNotFound fs path, ?_⟩
  intro lines entries hsome hok e he
  unfold load_wordlist at hok
  rw [hsome] at hok
  simp only [Except.ok.injEq] at hok
  subst hok
  obtain ⟨l, hlf, hle⟩ := List.mem_map.mp he
  have hl := List.mem_filter.mp hlf
  have hcond := hl.2
  rw [Bool.and_eq_true] at hcond
  have h1 : pyStrip l ≠ "" := bne_iff_ne.mp hcond.1
  have h2 : pyStartsWith l "#" = false := by
    have hb := hcond.2
    cases hx : pyStartsWith l "#"
    · rfl
    · rw [hx] at hb
      cases hb
  exact ⟨hle ▸ h1, l, hl.1, h2, h1, hle.symm⟩

/-- C8 witness: a four-line file whose kept entries are the stripped
`"www"` and `"mail"`; the entry `"www"` is non-empty and stems from a
non-comment line. -/
theorem c8_amended_wordlist_entries_witness :
    (load_wordlist
        (fun p => if p = "wl.txt" then some ["www", "# c", " ", " mail "]
          else none) "wl.txt" = .ok ["www", "mail"]) ∧
    ("www" ≠ "" ∧
      ∃ l ∈ ["www", "# c", " ", " mail "], pyStartsWith l "#" = false ∧
        pyStrip l ≠ "" ∧ "www" = pyStrip l) :=
  ⟨by decide,
   (c8_amended_wordlist_entries
      (fun p => if p = "wl.txt" then some ["www", "# c", " ", " mail "]
        else none) "wl.txt").2
     ["www", "# c", " ", " mail "] ["www", "mail"] (by decide) (by decide)
     "www" (by decide)⟩

end Recon
